import Mathlib

/-!
Verification of the Ethr network-measurement server (`src/server.go`).

The development shallowly embeds the server's control-plane handshake
(`handleRequest`), the data-plane handlers (`runBandwidthHandler`,
`runCPSHandler`, `runPPSHandler`, `runLatencyHandler`, `handleHttpRequest`)
and the per-test result counters.  Machine integers are modelled as `Nat`
with explicit `% 2^32` / `% 2^64` where Go's `uint32`/`uint64` wraparound
matters, and as `Int` with explicit two's-complement wrapping for `int64`.

The test registry (`newTest`, `getTest`, `deleteTest`, from `session.go`)
and the control-message transport (`recvSessionMsg`, `sendSessionMsg`) are
not part of `src/`; those collaborators are modelled from the spec, and
each such definition is marked `Modelled from the spec:` in its doc string.
-/

namespace Ethr

/-- Protocol enumeration used by `EthrTestID.Protocol` (`Tcp`, `Udp`, `Http`
are the values `server.go` switches on). -/
inductive EthrProtocol
  | Tcp
  | Udp
  | Http
deriving DecidableEq, Repr

/-- Test-type enumeration used by `EthrTestID.Type`. -/
inductive EthrTestType
  | Bandwidth
  | Cps
  | Pps
  | Latency
deriving DecidableEq, Repr

/-- Test identity `(protocol, test type)`; Go struct `EthrTestID`.  The Go
field `Type` is a reserved word in Lean, hence the primed field name. -/
structure EthrTestId where
  Protocol : EthrProtocol
  Type' : EthrTestType
deriving DecidableEq, Repr

/-- Client-supplied test configuration; Go struct `EthrTestParam`.  The
numeric fields are `uint32` in Go and are carried as `Nat` (their values
are in `[0, 2^32)`; all arithmetic done on them in the embedding applies
the explicit wraparound of the operation that uses them). -/
structure EthrTestParam where
  TestId : EthrTestId
  BufferSize : Nat
  RttCount : Nat
  NumThreads : Nat
deriving DecidableEq, Repr

/-- One live test record.  Go struct `ethrTest` (from `session.go`, not
under `src/`); the fields kept here are exactly the ones `server.go`
reads or writes: the key `(remoteAddr, testParam.TestId)`, the negotiated
`testParam`, the `isActive` flag, the `done` channel (modelled by the flag
`doneClosed`), and the result counter `testResult.data` (a `uint64`,
modelled as a `Nat` kept below `2^64` by the wrapping update functions). -/
structure EthrTest where
  remoteAddr : String
  testParam : EthrTestParam
  isActive : Bool
  doneClosed : Bool
  data : Nat
deriving DecidableEq, Repr

/-- The test registry: the keyed store of live test records.  Modelled from
the spec: a store mapping `(remote address, protocol, test type)` to a live
test record with create-if-absent, lookup and delete (`session.go` is not
under `src/`). -/
abbrev EthrRegistry := List EthrTest

/-- `2^32`, the wraparound modulus of Go `uint32` arithmetic. -/
def u32 : Nat := 2 ^ 32

/-- `2^64`, the wraparound modulus of Go `uint64` arithmetic. -/
def u64 : Nat := 2 ^ 64

/-- Modelled from the spec: `lookupTest(addr, protocol, type) -> Test|none`.
Returns the (unique) live record whose key matches. -/
def getTest (reg : EthrRegistry) (addr : String) (proto : EthrProtocol)
    (testType : EthrTestType) : Option EthrTest :=
  reg.find? fun t =>
    decide (t.remoteAddr = addr ∧ t.testParam.TestId = ⟨proto, testType⟩)

/-- Modelled from the spec: `createTest(addr, params) -> Test|DuplicateError`,
i.e. Go `newTest`.  Create-if-absent keyed by `(remoteAddress, testIdentity)`;
on conflict no record is created or mutated and an error (`none`) is
returned; otherwise the fresh record (inactive, `done` open, counter `0`)
and the extended registry are returned. -/
def newTest (reg : EthrRegistry) (addr : String) (param : EthrTestParam) :
    Option (EthrTest × EthrRegistry) :=
  match getTest reg addr param.TestId.Protocol param.TestId.Type' with
  | some _ => none
  | none =>
    let t : EthrTest := ⟨addr, param, false, false, 0⟩
    some (t, t :: reg)

/-- Modelled from the spec: `deleteTest(Test)` removes the record with the
given test's key from the registry. -/
def deleteTest (reg : EthrRegistry) (t : EthrTest) : EthrRegistry :=
  reg.filter fun r =>
    !decide (r.remoteAddr = t.remoteAddr ∧
             r.testParam.TestId = t.testParam.TestId)

/-- Control-plane session message; Go struct `EthrMsg` with its union of
bodies (`EthrSyn` carries the `EthrTestParam`, `EthrFin` a reason string,
`EthrBgn` a UDP port, `EthrAck` nothing).  `inv` models `EthrInv`, the
value `recvSessionMsg` yields on a decode/transport error (modelled from
the spec: any transport error at a receive step behaves as a message of
unexpected type). -/
inductive EthrMsg
  | syn (param : EthrTestParam)
  | ack
  | fin (message : String)
  | bgn (udpPort : String)
  | inv
deriving DecidableEq, Repr

/-- Modelled from the spec: human-readable protocol name (`protoToString`
lives in `utils.go`, not under `src/`; only used inside the `Fin` reason
text, whose exact wording no claim depends on). -/
def protoToString : EthrProtocol → String
  | .Tcp => "TCP"
  | .Udp => "UDP"
  | .Http => "HTTP"

/-- Modelled from the spec: human-readable test-type name (`testToString`
lives in `utils.go`, not under `src/`). -/
def testToString : EthrTestType → String
  | .Bandwidth => "Bandwidth"
  | .Cps => "Connections/s"
  | .Pps => "Packets/s"
  | .Latency => "Latency"

/-- The duplicate-rejection reason `handleRequest` puts into the `Fin`
message it sends when `newTest` reports a conflict (`server.go:80-83`). -/
def dupReason (param : EthrTestParam) (server : String) : String :=
  "Rejected duplicate " ++ protoToString param.TestId.Protocol ++ " " ++
    testToString param.TestId.Type' ++ " test from " ++ server

/-- Everything observable about one run of `handleRequest`
(`server.go:62-121`): the registry after the handler returns, the control
messages it (attempted to) send in order, whether the control connection
was closed (the `defer conn.Close()`), whether `close(test.done)` ran,
whether `deleteTest` ran, and whether the test was ever marked active. -/
structure HandleOutcome where
  regAfter : EthrRegistry
  sent : List EthrMsg
  connClosed : Bool
  doneClosed : Bool
  deleted : Bool
  becameActive : Bool
deriving DecidableEq, Repr

/-- The control-channel handler `handleRequest` (`server.go:62-121`).

Inputs beyond the registry and the client's address: `msgs` is the ordered
stream of messages the client's side of the control connection yields (an
exhausted stream models a transport error, i.e. `EthrInv`); `ppsSetupOk`
says whether `runServerPpsTest` (the UDP bind, `server.go:211-229`)
succeeds, and `ackSendOk` whether `sendSessionMsg` of the server's `Ack`
succeeds.

Control flow mirrored from the source: a first message that is not `Syn`
aborts silently; a `newTest` conflict sends `Fin` with the duplicate
reason and returns; afterwards `cleanupFunc` (close control connection,
`close(test.done)`, `deleteTest`) runs on every remaining path: Pps
data-plane setup failure, `Ack` send failure, a client reply other than
`Ack`, and normal termination (the blocking one-byte read always returns
eventually and is followed by cleanup).  `isActive` is set only after the
client's `Ack` and reset before cleanup; `becameActive` records that it
was set. -/
def handleRequest (reg : EthrRegistry) (server : String) (msgs : List EthrMsg)
    (ppsSetupOk : Bool) (ackSendOk : Bool) : HandleOutcome :=
  match msgs with
  | .syn testParam :: rest =>
    match newTest reg server testParam with
    | none =>
      ⟨reg, [.fin (dupReason testParam server)], true, false, false, false⟩
    | some (test, reg1) =>
      let regC := deleteTest reg1 test
      if testParam.TestId.Type' = .Pps ∧ ppsSetupOk = false then
        ⟨regC, [], true, true, true, false⟩
      else if ackSendOk = false then
        ⟨regC, [.ack], true, true, true, false⟩
      else
        match rest with
        | .ack :: _ => ⟨regC, [.ack], true, true, true, true⟩
        | _ => ⟨regC, [.ack], true, true, true, false⟩
  | _ => ⟨reg, [], true, false, false, false⟩

/-- Go `atomic.AddUint64` on a `uint64` counter. -/
def addUint64 (old n : Nat) : Nat := (old + n) % u64

/-- A test record with `atomic.AddUint64(&test.testResult.data, n)` applied. -/
def bumpData (t : EthrTest) (n : Nat) : EthrTest :=
  { t with data := addUint64 t.data n }

/-- Add `n` to the result counter of the first registry record matching the
key; the data-plane handlers obtain that record via `getTest` and update
its counter in place. -/
def addToFirst (reg : EthrRegistry) (addr : String) (proto : EthrProtocol)
    (testType : EthrTestType) (n : Nat) : EthrRegistry :=
  match reg with
  | [] => []
  | r :: rs =>
    if r.remoteAddr = addr ∧ r.testParam.TestId = ⟨proto, testType⟩ then
      bumpData r n :: rs
    else
      r :: addToFirst rs addr proto testType n

/-- The connections-per-second handler `runCPSHandler` (`server.go:202-209`)
as a registry transformer, run once per accepted TCP connection on the Cps
port: look up `(remoteAddr, Tcp, Cps)`; on a hit add `1` to that test's
counter; in all cases close the connection (it carries no data). -/
def runCPSHandler (reg : EthrRegistry) (server : String) : EthrRegistry :=
  match getTest reg server .Tcp .Cps with
  | some _ => addToFirst reg server .Tcp .Cps 1
  | none => reg

/-- One iteration of the per-datagram body of `runPPSHandler`
(`server.go:261-279`) for a successfully received UDP datagram whose
sender address is `server`: look up `(senderAddr, Udp, Pps)`; on a hit add
`1` to that test's counter, otherwise only log. -/
def runPPSHandlerStep (reg : EthrRegistry) (server : String) : EthrRegistry :=
  match getTest reg server .Udp .Pps with
  | some _ => addToFirst reg server .Udp .Pps 1
  | none => reg

/-- What happens to the bandwidth read loop on one iteration: either the
`select` sees `test.done` already closed, or the `io.ReadFull` completes,
or it fails with an error. -/
inductive BwEvent
  | doneFired
  | readOk
  | readErr
deriving DecidableEq, Repr

/-- The read loop of `runBandwidthHandler` (`server.go:159-177`) run over a
finite prefix of its iteration outcomes, starting from counter value
`data`.  Result: the counter afterwards, and whether the loop exited
(`break ExitForLoop`, upon which the deferred `closeConn` closes the
connection) within that prefix.  Mirrored from the source: `doneFired`
breaks out of the loop; a successful `io.ReadFull` adds `size`
(`test.testParam.BufferSize`) to the counter; a failed read logs at debug
level and `continue`s, i.e. the loop keeps running with the counter
unchanged. -/
def runBandwidthHandler (size : Nat) : List BwEvent → Nat → Nat × Bool
  | [], data => (data, false)
  | .doneFired :: _, data => (data, true)
  | .readOk :: evs, data => runBandwidthHandler size evs (addUint64 data size)
  | .readErr :: evs, data => runBandwidthHandler size evs data

/-- Observable responses written by `handleHttpRequest`
(`server.go:372-399`), in write order.  `drainedBody` marks the completed
`ioutil.ReadAll(r.Body)`, `okBody` the `200` response with body `"ok"`,
and the remaining constructors the `http.Error` status writes. -/
inductive HttpOut
  | drainedBody
  | okBody
  | badRequest
  | methodNotAllowed
  | unauthorized
deriving DecidableEq, Repr

/-- The HTTP bandwidth handler `handleHttpRequest` (`server.go:372-399`):
drain the body (a failure yields `400` and nothing else); methods other
than `GET`/`PUT`/`POST` get `405`; otherwise write the `200 "ok"` body and
only then look up `(remoteAddr, Http, Bandwidth)` — on a miss additionally
write `401`, on a hit add the request's declared `ContentLength` (an
`int64`, `-1` when unknown) to the test's counter exactly when it is
positive (`uint64(r.ContentLength)` is exact for positive `int64`). -/
def handleHttpRequest (reg : EthrRegistry) (method server : String)
    (contentLength : Int) (bodyReadOk : Bool) : List HttpOut × EthrRegistry :=
  if bodyReadOk = false then ([.badRequest], reg)
  else if method = "GET" ∨ method = "PUT" ∨ method = "POST" then
    match getTest reg server .Http .Bandwidth with
    | none => ([.drainedBody, .okBody, .unauthorized], reg)
    | some _ =>
      if 0 < contentLength then
        ([.drainedBody, .okBody],
          addToFirst reg server .Http .Bandwidth contentLength.toNat)
      else ([.drainedBody, .okBody], reg)
  else ([.drainedBody, .methodNotAllowed], reg)

/-- Two's-complement wraparound of Go `int64` arithmetic: the representative
of `z` modulo `2^64` lying in `[-2^63, 2^63)`. -/
def wrap64 (z : Int) : Int := (z + 2 ^ 63) % 2 ^ 64 - 2 ^ 63

/-- The accumulation `sum += d.Nanoseconds()` over the latency sample slice
(`server.go:338-341`): an `int64` running sum with wraparound on overflow
(Go signed arithmetic wraps). -/
def sumInt64 (l : List Int) : Int := l.foldl (fun s d => wrap64 (s + d)) 0

/-- Go conversion of an `int64` value to `uint64` (two's complement
reinterpretation): the representative of `z` modulo `2^64` in `[0, 2^64)`. -/
def toUint64 (z : Int) : Nat := (z % (2 ^ 64 : Int)).toNat

/-- Go `atomic.SwapUint64(&counter, v)`: stores `v`, discarding the old
counter value (the swap's return value is not used by `server.go`). -/
def swapUint64 (_oldVal newVal : Nat) : Nat := newVal

/-- `rttCountFixed` (`server.go:351-354`): the special handling forcing the
effective sample count to `2` when `rttCount == 1`, to keep the low
percentile indices from underflowing to `uint32(-1)`. -/
def rttCountFixedFn (rttCount : Nat) : Nat :=
  if rttCount = 1 then 2 else rttCount

/-- The index `((rttCountFixed*p)/100)-1` of `server.go:359-362` computed in
Go `uint32` arithmetic for `p ∈ {50, 90, 95, 99}`: the multiplication
wraps modulo `2^32`, the division truncates, and the `-1` wraps (it yields
`2^32 - 1` when the quotient is `0`). -/
def percIdx (nf p : Nat) : Nat := (nf * p % u32 / 100 + (u32 - 1)) % u32

/-- The index `uint64(((float64(rttCountFixed)*99.9)/100)-1)` of
`server.go:363`, modelled by exact rational arithmetic:
`trunc(nf*99.9/100 - 1) = (999*nf)/1000 - 1` (natural-number division and
truncating subtraction) whenever `nf ≥ 2`, which holds on every reachable
call (`rttCountFixedFn n ≥ 2` for `n ≥ 1`).  The IEEE-754 `float64`
evaluation in the source computes exactly this value for every
`2 ≤ nf ≤ 4.35 * 10^7`, a range containing all `nf` appearing in the
theorems below; the rational model stands in for the float computation. -/
def percIdx999 (nf : Nat) : Nat := 999 * nf / 1000 - 1

/-- The index `uint64(((float64(rttCountFixed)*99.99)/100)-1)` of
`server.go:364`, modelled by exact rational arithmetic exactly as
`percIdx999` (the `float64` evaluation agrees on `2 ≤ nf ≤ 4.35 * 10^7`). -/
def percIdx9999 (nf : Nat) : Nat := 9999 * nf / 10000 - 1

/-- Everything one batch iteration of `runLatencyHandler` publishes after
collecting its `rttCount` round-trip samples (`server.go:338-368`): the
new value of the test's result counter (stored by `atomic.SwapUint64`) and
the nine values handed to `ui.emitLatencyResults`. -/
structure LatencyBatch where
  newData : Nat
  avg : Int
  min : Int
  max : Int
  p50 : Int
  p90 : Int
  p95 : Int
  p99 : Int
  p999 : Int
  p9999 : Int
deriving DecidableEq, Repr

/-- `sort.SliceStable(latencyNumbers, less-than)` (`server.go:343-345`):
the stable ascending sort of the sample slice.  A stable sort with strict
`<` as the comparison produces the unique stable `≤`-ordering, i.e.
`List.mergeSort` with `≤`. -/
def sortLatency (l : List Int) : List Int :=
  l.mergeSort fun a b => decide (a ≤ b)

/-- The per-batch computation of `runLatencyHandler` (`server.go:338-368`)
on one batch of round-trip samples, as a function of `rttCount`
(`test.testParam.RttCount`), the raw sample durations in nanoseconds
(`int64` values), and the old counter value.  `none` models a runtime
panic: division by zero in `sum / int64(rttCount)` when `rttCount = 0`,
or any percentile/min/max index falling outside the sorted slice.
(In the source the counter swap at line 355 precedes the indexing, so on
an index panic the counter was already stored before the goroutine died;
the `some` case — the only one in which the handler survives to report and
loop — is what the theorems below quantify over.) -/
def latencyBatch (rttCount : Nat) (latencyNumbers : List Int)
    (oldData : Nat) : Option LatencyBatch :=
  if rttCount = 0 then none
  else
    let sum := sumInt64 latencyNumbers
    let elapsed := Int.tdiv sum (rttCount : Int)
    let sorted := sortLatency latencyNumbers
    let nf := rttCountFixedFn rttCount
    let newData := swapUint64 oldData (toUint64 elapsed)
    do
      let mn ← sorted[0]?
      let mx ← sorted[rttCount - 1]?
      let q50 ← sorted[percIdx nf 50]?
      let q90 ← sorted[percIdx nf 90]?
      let q95 ← sorted[percIdx nf 95]?
      let q99 ← sorted[percIdx nf 99]?
      let q999 ← sorted[percIdx999 nf]?
      let q9999 ← sorted[percIdx9999 nf]?
      some ⟨newData, elapsed, mn, mx, q50, q90, q95, q99, q999, q9999⟩

/-- The sample list `0, 1, 2, ...` (in nanoseconds) used as a concrete
batch input for large sample counts. -/
def rangeDurations (n : Nat) : List Int :=
  (List.range n).map Int.ofNat

/-- The percentile index the spec's sentence prescribes, following its
words: `samples[ceil(rttCountEff * p / 100) - 1]` (stated for comparison
with the source-derived `percIdx` family; `p` is in percent, possibly
fractional). -/
def specCeilIdx (nf : Nat) (p : ℚ) : Nat := ⌈(nf * p) / 100⌉₊ - 1

/-- The floor-based percentile index that the source actually computes,
stated over exact rational arithmetic for comparison with `specCeilIdx`:
`samples[floor(rttCountEff * p / 100) - 1]`. -/
def specFloorIdx (nf : Nat) (p : ℚ) : Nat := ⌊(nf * p) / 100⌋₊ - 1

/-! ### Helper lemmas (shared infrastructure, not claim theorems) -/

theorem sortLatency_sorted (l : List Int) :
    List.Sorted (· ≤ ·) (sortLatency l) :=
  List.sorted_mergeSort' l

theorem sortLatency_perm (l : List Int) : List.Perm (sortLatency l) l :=
  List.mergeSort_perm l _

theorem sortLatency_length (l : List Int) :
    (sortLatency l).length = l.length :=
  (sortLatency_perm l).length_eq

theorem sortLatency_eq_self {l : List Int} (h : List.Sorted (· ≤ ·) l) :
    sortLatency l = l :=
  List.mergeSort_eq_self h

theorem rangeDurations_sorted (n : Nat) :
    List.Sorted (· ≤ ·) (rangeDurations n) :=
  (List.pairwise_lt_range n).map (S := (· ≤ · : Int → Int → Prop)) Int.ofNat
    (fun _ _ hab => Int.ofNat_le.mpr (Nat.le_of_lt hab))

theorem rangeDurations_length (n : Nat) : (rangeDurations n).length = n := by
  simp [rangeDurations]

theorem rangeDurations_getElem {n i : Nat} (h : i < n) :
    (rangeDurations n)[i]? = some (Int.ofNat i) := by
  simp only [rangeDurations, List.getElem?_map, List.getElem?_range h,
    Option.map_some']

/-- Unfolding of `latencyBatch` to its outcome once all eight indices are
known to be within the sorted slice. -/
theorem latencyBatch_eval (n : Nat) (l : List Int) (old : Nat) (hn : n ≠ 0)
    (h0 : 0 < (sortLatency l).length)
    (hmax : n - 1 < (sortLatency l).length)
    (h50 : percIdx (rttCountFixedFn n) 50 < (sortLatency l).length)
    (h90 : percIdx (rttCountFixedFn n) 90 < (sortLatency l).length)
    (h95 : percIdx (rttCountFixedFn n) 95 < (sortLatency l).length)
    (h99 : percIdx (rttCountFixedFn n) 99 < (sortLatency l).length)
    (h999 : percIdx999 (rttCountFixedFn n) < (sortLatency l).length)
    (h9999 : percIdx9999 (rttCountFixedFn n) < (sortLatency l).length) :
    latencyBatch n l old = some
      { newData := toUint64 (Int.tdiv (sumInt64 l) (n : Int)),
        avg := Int.tdiv (sumInt64 l) (n : Int),
        min := (sortLatency l).get ⟨0, h0⟩,
        max := (sortLatency l).get ⟨n - 1, hmax⟩,
        p50 := (sortLatency l).get ⟨percIdx (rttCountFixedFn n) 50, h50⟩,
        p90 := (sortLatency l).get ⟨percIdx (rttCountFixedFn n) 90, h90⟩,
        p95 := (sortLatency l).get ⟨percIdx (rttCountFixedFn n) 95, h95⟩,
        p99 := (sortLatency l).get ⟨percIdx (rttCountFixedFn n) 99, h99⟩,
        p999 := (sortLatency l).get ⟨percIdx999 (rttCountFixedFn n), h999⟩,
        p9999 := (sortLatency l).get ⟨percIdx9999 (rttCountFixedFn n), h9999⟩ } := by
  simp only [latencyBatch, if_neg hn, swapUint64,
    List.getElem?_eq_getElem h0, List.getElem?_eq_getElem hmax,
    List.getElem?_eq_getElem h50, List.getElem?_eq_getElem h90,
    List.getElem?_eq_getElem h95, List.getElem?_eq_getElem h99,
    List.getElem?_eq_getElem h999, List.getElem?_eq_getElem h9999,
    Option.bind_eq_bind, Option.some_bind, List.get_eq_getElem]

theorem nat_floor_div (a b : Nat) : ⌊(a : ℚ) / (b : ℚ)⌋₊ = a / b := by
  rw [Nat.floor_div_nat (a : ℚ) b, Nat.floor_natCast]

theorem specFloorIdx_nat (nf p : Nat) :
    specFloorIdx nf (p : ℚ) = nf * p / 100 - 1 := by
  unfold specFloorIdx
  rw [show ((nf : ℚ) * (p : ℚ) / 100) = ((nf * p : ℕ) : ℚ) / ((100 : ℕ) : ℚ) by
        push_cast; ring,
      nat_floor_div]

theorem specFloorIdx_999 (nf : Nat) :
    specFloorIdx nf (999 / 10) = 999 * nf / 1000 - 1 := by
  unfold specFloorIdx
  rw [show ((nf : ℚ) * (999 / 10) / 100) = ((999 * nf : ℕ) : ℚ) / ((1000 : ℕ) : ℚ) by
        push_cast; ring,
      nat_floor_div]

theorem specFloorIdx_9999 (nf : Nat) :
    specFloorIdx nf (9999 / 100) = 9999 * nf / 10000 - 1 := by
  unfold specFloorIdx
  rw [show ((nf : ℚ) * (9999 / 100) / 100) = ((9999 * nf : ℕ) : ℚ) / ((10000 : ℕ) : ℚ) by
        push_cast; ring,
      nat_floor_div]

/-- In the overflow-free regime the `uint32` index computation is plain
truncating division: `percIdx nf p = nf * p / 100 - 1`. -/
theorem percIdx_eq_div {nf p : Nat} (h2 : 2 ≤ nf) (hp : 50 ≤ p) (hp99 : p ≤ 99)
    (hov : nf * 99 < u32) : percIdx nf p = nf * p / 100 - 1 := by
  have h100 : 100 ≤ nf * p := le_trans (by norm_num) (Nat.mul_le_mul h2 hp)
  have hov' : nf * p < u32 := lt_of_le_of_lt (Nat.mul_le_mul_left nf hp99) hov
  unfold percIdx
  rw [Nat.mod_eq_of_lt hov']
  have hd1 : 1 ≤ nf * p / 100 := (Nat.one_le_div_iff (by norm_num)).mpr h100
  have hd2 : nf * p / 100 < u32 := lt_of_le_of_lt (Nat.div_le_self _ _) hov'
  unfold u32 at hd2 ⊢
  generalize nf * p / 100 = d at hd1 hd2 ⊢
  omega

/-- All eight slice indices of one latency batch are within bounds whenever
`rttCount ≥ 1` and the `uint32` products do not overflow. -/
theorem latency_indices_lt {n : Nat} (hn : 1 ≤ n)
    (hov : rttCountFixedFn n * 99 < u32) :
    percIdx (rttCountFixedFn n) 50 < n ∧ percIdx (rttCountFixedFn n) 90 < n ∧
    percIdx (rttCountFixedFn n) 95 < n ∧ percIdx (rttCountFixedFn n) 99 < n ∧
    percIdx999 (rttCountFixedFn n) < n ∧ percIdx9999 (rttCountFixedFn n) < n ∧
    n - 1 < n ∧ 0 < n := by
  rcases eq_or_lt_of_le hn with h1 | h2
  · rw [← h1]
    refine ⟨?_, ?_, ?_, ?_, ?_, ?_, ?_, ?_⟩ <;> decide
  · have hnf : rttCountFixedFn n = n := by
      unfold rttCountFixedFn; rw [if_neg (by omega)]
    rw [hnf] at hov ⊢
    have e50 := percIdx_eq_div (p := 50) (by omega) (by norm_num) (by norm_num) hov
    have e90 := percIdx_eq_div (p := 90) (by omega) (by norm_num) (by norm_num) hov
    have e95 := percIdx_eq_div (p := 95) (by omega) (by norm_num) (by norm_num) hov
    have e99 := percIdx_eq_div (p := 99) (by omega) (by norm_num) (by norm_num) hov
    rw [e50, e90, e95, e99]
    unfold percIdx999 percIdx9999
    omega

/-- The six percentile projections of a successful batch are lookups in the
sorted slice at the source's index family. -/
theorem latencyBatch_proj (n : Nat) (l : List Int) (old : Nat)
    (hn : 1 ≤ n) (hlen : l.length = n) (hov : rttCountFixedFn n * 99 < u32) :
    (latencyBatch n l old).map LatencyBatch.p50 =
      (sortLatency l)[percIdx (rttCountFixedFn n) 50]? ∧
    (latencyBatch n l old).map LatencyBatch.p90 =
      (sortLatency l)[percIdx (rttCountFixedFn n) 90]? ∧
    (latencyBatch n l old).map LatencyBatch.p95 =
      (sortLatency l)[percIdx (rttCountFixedFn n) 95]? ∧
    (latencyBatch n l old).map LatencyBatch.p99 =
      (sortLatency l)[percIdx (rttCountFixedFn n) 99]? ∧
    (latencyBatch n l old).map LatencyBatch.p999 =
      (sortLatency l)[percIdx999 (rttCountFixedFn n)]? ∧
    (latencyBatch n l old).map LatencyBatch.p9999 =
      (sortLatency l)[percIdx9999 (rttCountFixedFn n)]? := by
  have hlen' : (sortLatency l).length = n := by rw [sortLatency_length, hlen]
  obtain ⟨b50, b90, b95, b99, b999, b9999, bmax, b0⟩ := latency_indices_lt hn hov
  have B0 : 0 < (sortLatency l).length := by rw [hlen']; exact b0
  have Bmax : n - 1 < (sortLatency l).length := by rw [hlen']; exact bmax
  have B50 : percIdx (rttCountFixedFn n) 50 < (sortLatency l).length := by
    rw [hlen']; exact b50
  have B90 : percIdx (rttCountFixedFn n) 90 < (sortLatency l).length := by
    rw [hlen']; exact b90
  have B95 : percIdx (rttCountFixedFn n) 95 < (sortLatency l).length := by
    rw [hlen']; exact b95
  have B99 : percIdx (rttCountFixedFn n) 99 < (sortLatency l).length := by
    rw [hlen']; exact b99
  have B999 : percIdx999 (rttCountFixedFn n) < (sortLatency l).length := by
    rw [hlen']; exact b999
  have B9999 : percIdx9999 (rttCountFixedFn n) < (sortLatency l).length := by
    rw [hlen']; exact b9999
  rw [latencyBatch_eval n l old (by omega) B0 Bmax B50 B90 B95 B99 B999 B9999]
  exact ⟨(List.getElem?_eq_getElem B50).symm, (List.getElem?_eq_getElem B90).symm,
    (List.getElem?_eq_getElem B95).symm, (List.getElem?_eq_getElem B99).symm,
    (List.getElem?_eq_getElem B999).symm, (List.getElem?_eq_getElem B9999).symm⟩

/-- The index family is monotone across `p50 → p99.99` in the overflow-free
regime. -/
theorem latency_indices_mono {nf : Nat} (h2 : 2 ≤ nf) (hov : nf * 99 < u32) :
    percIdx nf 50 ≤ percIdx nf 90 ∧ percIdx nf 90 ≤ percIdx nf 95 ∧
    percIdx nf 95 ≤ percIdx nf 99 ∧ percIdx nf 99 ≤ percIdx999 nf ∧
    percIdx999 nf ≤ percIdx9999 nf := by
  rw [percIdx_eq_div (p := 50) h2 (by norm_num) (by norm_num) hov,
    percIdx_eq_div (p := 90) h2 (by norm_num) (by norm_num) hov,
    percIdx_eq_div (p := 95) h2 (by norm_num) (by norm_num) hov,
    percIdx_eq_div (p := 99) h2 (by norm_num) (by norm_num) hov]
  unfold percIdx999 percIdx9999
  refine ⟨?_, ?_, ?_, ?_, ?_⟩ <;> omega

theorem rttCountFixedFn_two_le {n : Nat} (hn : 1 ≤ n) :
    2 ≤ rttCountFixedFn n := by
  unfold rttCountFixedFn; split <;> omega

theorem wrap64_eq_self {z : Int} (hlow : -(2 ^ 63) ≤ z) (hhigh : z < 2 ^ 63) :
    wrap64 z = z := by
  unfold wrap64; omega

theorem sumInt64_aux (l : List Int) :
    ∀ s : Int, 0 ≤ s → (∀ d ∈ l, 0 ≤ d) → s + l.sum < 2 ^ 63 →
      l.foldl (fun a d => wrap64 (a + d)) s = s + l.sum := by
  induction l with
  | nil => intro s _ _ _; simp
  | cons d t ih =>
    intro s hs hpos hlt
    have hd : 0 ≤ d := hpos d (List.mem_cons_self d t)
    have ht : 0 ≤ t.sum :=
      List.sum_nonneg fun x hx => hpos x (List.mem_cons_of_mem d hx)
    simp only [List.foldl_cons, List.sum_cons] at hlt ⊢
    have hw : wrap64 (s + d) = s + d :=
      wrap64_eq_self (by omega) (by omega)
    rw [hw, ih (s + d) (by omega)
      (fun x hx => hpos x (List.mem_cons_of_mem d hx)) (by omega)]
    ring

/-- When all samples are nonnegative and their true total is below `2^63`,
the wrapping `int64` accumulation computes the exact sum. -/
theorem sumInt64_eq_sum {l : List Int} (hpos : ∀ d ∈ l, 0 ≤ d)
    (hlt : l.sum < 2 ^ 63) : sumInt64 l = l.sum := by
  have := sumInt64_aux l 0 le_rfl hpos (by omega)
  simpa [sumInt64] using this

/-- Deleting a freshly created test record from the extended registry
restores the original registry, provided the key was absent before. -/
theorem deleteTest_fresh (reg : EthrRegistry) (server : String)
    (param : EthrTestParam)
    (hnone : getTest reg server param.TestId.Protocol param.TestId.Type' = none) :
    deleteTest (⟨server, param, false, false, 0⟩ :: reg)
      ⟨server, param, false, false, 0⟩ = reg := by
  have heta : (⟨param.TestId.Protocol, param.TestId.Type'⟩ : EthrTestId) =
      param.TestId := rfl
  unfold deleteTest
  rw [List.filter_cons, if_neg (by simp)]
  refine List.filter_eq_self.mpr fun r hr => ?_
  have hkey := List.find?_eq_none.mp hnone r hr
  rw [heta] at hkey
  simp at hkey ⊢
  tauto

/-- Characterization of `addToFirst` when a matching record exists: the
first matching record (the one `getTest` returns) gets its counter bumped
and, by the semantics of `List.set`, every other record is untouched. -/
theorem getTest_addToFirst {reg : EthrRegistry} {addr : String}
    {proto : EthrProtocol} {testType : EthrTestType} {t : EthrTest}
    (h : getTest reg addr proto testType = some t) (n : Nat) :
    ∃ i, reg[i]? = some t ∧
      addToFirst reg addr proto testType n = reg.set i (bumpData t n) := by
  induction reg with
  | nil => simp [getTest] at h
  | cons r rs ih =>
    by_cases hr : r.remoteAddr = addr ∧ r.testParam.TestId = ⟨proto, testType⟩
    · have hp : decide (r.remoteAddr = addr ∧
          r.testParam.TestId = ⟨proto, testType⟩) = true := by simpa using hr
      have hfind := List.find?_cons_of_pos
        (p := fun x : EthrTest => decide (x.remoteAddr = addr ∧
          x.testParam.TestId = ⟨proto, testType⟩)) rs hp
      have hrt : r = t := by
        rw [getTest, hfind] at h
        exact Option.some.inj h
      subst hrt
      refine ⟨0, by simp, ?_⟩
      simp [addToFirst, hr]
    · have hpf : ¬ (decide (r.remoteAddr = addr ∧
          r.testParam.TestId = ⟨proto, testType⟩) = true) := by simpa using hr
      have hfind := List.find?_cons_of_neg
        (p := fun x : EthrTest => decide (x.remoteAddr = addr ∧
          x.testParam.TestId = ⟨proto, testType⟩)) rs hpf
      have h' : getTest rs addr proto testType = some t := by
        rw [getTest, hfind] at h
        exact h
      obtain ⟨i, hi, ha⟩ := ih h'
      refine ⟨i + 1, by simpa using hi, ?_⟩
      simp [addToFirst, hr, ha]

/-! ### Claim theorems -/

/-- C10: the latency handler has the unstated precondition `rttCount ≥ 1`;
with `RttCount = 0` the batch-mean computation `sum / int64(rttCount)`
divides by zero, i.e. the per-batch computation panics (`none`) for every
sample slice and every previous counter value, so the handler is
well-defined only when `rttCount ≥ 1`. -/
theorem latency_zero_rttCount_divzero (l : List Int) (old : Nat) :
    latencyBatch 0 l old = none := by
  simp [latencyBatch]

unseal List.merge List.mergeSort in
/-- C4: for `rttCount = 1` the computed `min`, `max` and all six reported
percentiles (`p50`, `p90`, `p95`, `p99`, `p99.9`, `p99.99`) equal the
single round-trip sample's value, for every sample value and every
previous counter value. -/
theorem latency_single_sample_all_equal (d : Int) (old : Nat) :
    (latencyBatch 1 [d] old).map LatencyBatch.min = some d ∧
    (latencyBatch 1 [d] old).map LatencyBatch.max = some d ∧
    (latencyBatch 1 [d] old).map LatencyBatch.p50 = some d ∧
    (latencyBatch 1 [d] old).map LatencyBatch.p90 = some d ∧
    (latencyBatch 1 [d] old).map LatencyBatch.p95 = some d ∧
    (latencyBatch 1 [d] old).map LatencyBatch.p99 = some d ∧
    (latencyBatch 1 [d] old).map LatencyBatch.p999 = some d ∧
    (latencyBatch 1 [d] old).map LatencyBatch.p9999 = some d :=
  ⟨rfl, rfl, rfl, rfl, rfl, rfl, rfl, rfl⟩

unseal List.merge List.mergeSort in
/-- C3, counterexample: for `rttCount = 10` and the (already ascending)
batch `0, ..., 9` ns, the handler reports `p99 = 8` — the sample at floor
index `(10*99)/100 - 1 = 8` — whereas the claim's formula
`samples[ceil(rttCountEff * 99 / 100) - 1]` selects index `9`, whose
sample is `9 ≠ 8`. -/
theorem latency_percentile_ceil_refuted :
    (latencyBatch 10 [0, 1, 2, 3, 4, 5, 6, 7, 8, 9] 0).map LatencyBatch.p99 =
      some 8 ∧
    specCeilIdx 10 99 = 9 ∧
    ([0, 1, 2, 3, 4, 5, 6, 7, 8, 9] : List Int)[specCeilIdx 10 99]? = some 9 ∧
    (8 : Int) ≠ 9 := by
  have hc : (⌈(990 : ℚ) / 100⌉₊ : ℕ) = 10 := by
    rw [Nat.ceil_eq_iff (by norm_num)]
    constructor <;> norm_num
  have hts : specCeilIdx 10 99 = 9 := by
    unfold specCeilIdx
    rw [show ((10 : ℕ) : ℚ) * (99 : ℚ) / 100 = (990 : ℚ) / 100 by norm_num, hc]
  exact ⟨rfl, hts, by rw [hts]; rfl, by decide⟩

/-- C3, amended: for every batch of `rttCount` round-trip samples sorted
ascending, the handler reports percentile `p` (for
`p ∈ {50, 90, 95, 99, 99.9, 99.99}`) as
`samples[floor(rttCountEff * p / 100) - 1]` — truncating (floor) division,
not the ceiling of the claim — where `rttCountEff = rttCount` except that
it is forced to `2` when `rttCount = 1`; stated in the regime where the
`uint32` product `rttCountEff * 99` does not overflow (the counterexample
for C5 exhibits what happens beyond it). -/
theorem latency_percentile_floor_reported (n : Nat) (l : List Int) (old : Nat)
    (hn : 1 ≤ n) (hlen : l.length = n) (hsorted : List.Sorted (· ≤ ·) l)
    (hov : rttCountFixedFn n * 99 < u32) :
    (latencyBatch n l old).map LatencyBatch.p50 =
      l[specFloorIdx (rttCountFixedFn n) 50]? ∧
    (latencyBatch n l old).map LatencyBatch.p90 =
      l[specFloorIdx (rttCountFixedFn n) 90]? ∧
    (latencyBatch n l old).map LatencyBatch.p95 =
      l[specFloorIdx (rttCountFixedFn n) 95]? ∧
    (latencyBatch n l old).map LatencyBatch.p99 =
      l[specFloorIdx (rttCountFixedFn n) 99]? ∧
    (latencyBatch n l old).map LatencyBatch.p999 =
      l[specFloorIdx (rttCountFixedFn n) (999 / 10)]? ∧
    (latencyBatch n l old).map LatencyBatch.p9999 =
      l[specFloorIdx (rttCountFixedFn n) (9999 / 100)]? := by
  have h2 := rttCountFixedFn_two_le hn
  obtain ⟨P50, P90, P95, P99, P999, P9999⟩ := latencyBatch_proj n l old hn hlen hov
  have hss := sortLatency_eq_self hsorted
  rw [hss] at P50 P90 P95 P99 P999 P9999
  have e50 : specFloorIdx (rttCountFixedFn n) 50 = percIdx (rttCountFixedFn n) 50 := by
    rw [percIdx_eq_div (p := 50) h2 (by norm_num) (by norm_num) hov]
    simpa using specFloorIdx_nat (rttCountFixedFn n) 50
  have e90 : specFloorIdx (rttCountFixedFn n) 90 = percIdx (rttCountFixedFn n) 90 := by
    rw [percIdx_eq_div (p := 90) h2 (by norm_num) (by norm_num) hov]
    simpa using specFloorIdx_nat (rttCountFixedFn n) 90
  have e95 : specFloorIdx (rttCountFixedFn n) 95 = percIdx (rttCountFixedFn n) 95 := by
    rw [percIdx_eq_div (p := 95) h2 (by norm_num) (by norm_num) hov]
    simpa using specFloorIdx_nat (rttCountFixedFn n) 95
  have e99 : specFloorIdx (rttCountFixedFn n) 99 = percIdx (rttCountFixedFn n) 99 := by
    rw [percIdx_eq_div (p := 99) h2 (by norm_num) (by norm_num) hov]
    simpa using specFloorIdx_nat (rttCountFixedFn n) 99
  have e999 : specFloorIdx (rttCountFixedFn n) (999 / 10) =
      percIdx999 (rttCountFixedFn n) := specFloorIdx_999 _
  have e9999 : specFloorIdx (rttCountFixedFn n) (9999 / 100) =
      percIdx9999 (rttCountFixedFn n) := specFloorIdx_9999 _
  exact ⟨by rw [e50]; exact P50, by rw [e90]; exact P90, by rw [e95]; exact P95,
    by rw [e99]; exact P99, by rw [e999]; exact P999, by rw [e9999]; exact P9999⟩

unseal List.merge List.mergeSort in
/-- Witness for C3's amended theorem at `rttCount = 4`,
samples `[1, 2, 3, 4]`. -/
theorem latency_percentile_floor_reported_witness :
    (1 ≤ 4 ∧ ([1, 2, 3, 4] : List Int).length = 4 ∧
      List.Sorted (· ≤ ·) ([1, 2, 3, 4] : List Int) ∧
      rttCountFixedFn 4 * 99 < u32) ∧
    ((latencyBatch 4 [1, 2, 3, 4] 0).map LatencyBatch.p50 =
      ([1, 2, 3, 4] : List Int)[specFloorIdx (rttCountFixedFn 4) 50]? ∧
    (latencyBatch 4 [1, 2, 3, 4] 0).map LatencyBatch.p90 =
      ([1, 2, 3, 4] : List Int)[specFloorIdx (rttCountFixedFn 4) 90]? ∧
    (latencyBatch 4 [1, 2, 3, 4] 0).map LatencyBatch.p95 =
      ([1, 2, 3, 4] : List Int)[specFloorIdx (rttCountFixedFn 4) 95]? ∧
    (latencyBatch 4 [1, 2, 3, 4] 0).map LatencyBatch.p99 =
      ([1, 2, 3, 4] : List Int)[specFloorIdx (rttCountFixedFn 4) 99]? ∧
    (latencyBatch 4 [1, 2, 3, 4] 0).map LatencyBatch.p999 =
      ([1, 2, 3, 4] : List Int)[specFloorIdx (rttCountFixedFn 4) (999 / 10)]? ∧
    (latencyBatch 4 [1, 2, 3, 4] 0).map LatencyBatch.p9999 =
      ([1, 2, 3, 4] : List Int)[specFloorIdx (rttCountFixedFn 4) (9999 / 100)]?) :=
  ⟨⟨by norm_num, by decide, by decide, by decide⟩,
    latency_percentile_floor_reported 4 [1, 2, 3, 4] 0 (by norm_num) (by decide)
      (by decide) (by decide)⟩

/-- C5, amended: for every sample batch whose `rttCount ≥ 1` is small
enough that the `uint32` product `rttCountEff * 99` does not wrap (i.e.
`rttCountEff * 99 < 2^32`, violated only from `rttCount ≈ 4.3 * 10^7` on),
the batch succeeds and the six reported percentile values are
monotonically non-decreasing in the order
`p50, p90, p95, p99, p99.9, p99.99`.  The unrestricted claim is refuted by
the overflow counterexample below. -/
theorem latency_percentile_mono_no_overflow (n : Nat) (l : List Int) (old : Nat)
    (hn : 1 ≤ n) (hlen : l.length = n) (hov : rttCountFixedFn n * 99 < u32) :
    ∃ b, latencyBatch n l old = some b ∧
      b.p50 ≤ b.p90 ∧ b.p90 ≤ b.p95 ∧ b.p95 ≤ b.p99 ∧
      b.p99 ≤ b.p999 ∧ b.p999 ≤ b.p9999 := by
  have h2 := rttCountFixedFn_two_le hn
  have hlen' : (sortLatency l).length = n := by rw [sortLatency_length, hlen]
  obtain ⟨b50, b90, b95, b99, b999, b9999, bmax, b0⟩ := latency_indices_lt hn hov
  obtain ⟨m1, m2, m3, m4, m5⟩ := latency_indices_mono h2 hov
  have B0 : 0 < (sortLatency l).length := by rw [hlen']; exact b0
  have Bmax : n - 1 < (sortLatency l).length := by rw [hlen']; exact bmax
  have B50 : percIdx (rttCountFixedFn n) 50 < (sortLatency l).length := by
    rw [hlen']; exact b50
  have B90 : percIdx (rttCountFixedFn n) 90 < (sortLatency l).length := by
    rw [hlen']; exact b90
  have B95 : percIdx (rttCountFixedFn n) 95 < (sortLatency l).length := by
    rw [hlen']; exact b95
  have B99 : percIdx (rttCountFixedFn n) 99 < (sortLatency l).length := by
    rw [hlen']; exact b99
  have B999 : percIdx999 (rttCountFixedFn n) < (sortLatency l).length := by
    rw [hlen']; exact b999
  have B9999 : percIdx9999 (rttCountFixedFn n) < (sortLatency l).length := by
    rw [hlen']; exact b9999
  refine ⟨_,
    latencyBatch_eval n l old (by omega) B0 Bmax B50 B90 B95 B99 B999 B9999,
    ?_, ?_, ?_, ?_, ?_⟩
  · exact (sortLatency_sorted l).rel_get_of_le (Fin.mk_le_mk.mpr m1)
  · exact (sortLatency_sorted l).rel_get_of_le (Fin.mk_le_mk.mpr m2)
  · exact (sortLatency_sorted l).rel_get_of_le (Fin.mk_le_mk.mpr m3)
  · exact (sortLatency_sorted l).rel_get_of_le (Fin.mk_le_mk.mpr m4)
  · exact (sortLatency_sorted l).rel_get_of_le (Fin.mk_le_mk.mpr m5)

/-- Witness for C5's amended theorem at `rttCount = 2`, samples `[7, 3]`. -/
theorem latency_percentile_mono_no_overflow_witness :
    (1 ≤ 2 ∧ ([7, 3] : List Int).length = 2 ∧ rttCountFixedFn 2 * 99 < u32) ∧
    (∃ b, latencyBatch 2 [7, 3] 0 = some b ∧
      b.p50 ≤ b.p90 ∧ b.p90 ≤ b.p95 ∧ b.p95 ≤ b.p99 ∧
      b.p99 ≤ b.p999 ∧ b.p999 ≤ b.p9999) :=
  ⟨⟨by norm_num, by decide, by decide⟩,
    latency_percentile_mono_no_overflow 2 [7, 3] 0 (by norm_num) (by decide)
      (by decide)⟩

/-- C5, counterexample: at `rttCount = 43400000` the `uint32` product
`rttCount * 99 = 4296600000` wraps modulo `2^32` to `1632704`, collapsing
the `p99` index to `16326`, while the non-wrapping `p95` index is
`41229999`; on the ascending batch `0, 1, ..., 43399999` ns the handler
hence reports `p95 = 41229999` but `p99 = 16326 < p95`, violating the
claimed monotonicity of the percentile outputs. -/
theorem latency_percentile_mono_refuted :
    (latencyBatch 43400000 (rangeDurations 43400000) 0).map LatencyBatch.p95 =
      some (Int.ofNat 41229999) ∧
    (latencyBatch 43400000 (rangeDurations 43400000) 0).map LatencyBatch.p99 =
      some (Int.ofNat 16326) ∧
    ¬ (Int.ofNat 41229999 ≤ Int.ofNat 16326) := by
  have hss : sortLatency (rangeDurations 43400000) = rangeDurations 43400000 :=
    sortLatency_eq_self (rangeDurations_sorted _)
  have hlen' : (sortLatency (rangeDurations 43400000)).length = 43400000 := by
    rw [hss, rangeDurations_length]
  have hi95 : percIdx (rttCountFixedFn 43400000) 95 = 41229999 := by decide
  have hi99 : percIdx (rttCountFixedFn 43400000) 99 = 16326 := by decide
  have B0 : 0 < (sortLatency (rangeDurations 43400000)).length := by
    rw [hlen']; norm_num
  have Bmax : 43400000 - 1 < (sortLatency (rangeDurations 43400000)).length := by
    rw [hlen']; norm_num
  have B50 : percIdx (rttCountFixedFn 43400000) 50 <
      (sortLatency (rangeDurations 43400000)).length := by
    rw [hlen']; decide
  have B90 : percIdx (rttCountFixedFn 43400000) 90 <
      (sortLatency (rangeDurations 43400000)).length := by
    rw [hlen']; decide
  have B95 : percIdx (rttCountFixedFn 43400000) 95 <
      (sortLatency (rangeDurations 43400000)).length := by
    rw [hlen']; decide
  have B99 : percIdx (rttCountFixedFn 43400000) 99 <
      (sortLatency (rangeDurations 43400000)).length := by
    rw [hlen']; decide
  have B999 : percIdx999 (rttCountFixedFn 43400000) <
      (sortLatency (rangeDurations 43400000)).length := by
    rw [hlen']; decide
  have B9999 : percIdx9999 (rttCountFixedFn 43400000) <
      (sortLatency (rangeDurations 43400000)).length := by
    rw [hlen']; decide
  have E := latencyBatch_eval 43400000 (rangeDurations 43400000) 0
    (by norm_num) B0 Bmax B50 B90 B95 B99 B999 B9999
  refine ⟨?_, ?_, by decide⟩
  · rw [E]
    refine (List.getElem?_eq_getElem B95).symm.trans ?_
    rw [hss, hi95]
    exact rangeDurations_getElem (by norm_num)
  · rw [E]
    refine (List.getElem?_eq_getElem B99).symm.trans ?_
    rw [hss, hi99]
    exact rangeDurations_getElem (by norm_num)

/-- C6: after each successful batch the latency test's counter holds
exactly the integer-truncated arithmetic mean (in nanoseconds) of the
`rttCount` samples of that batch, and the stored value is independent of
— it overwrites, rather than accumulates onto — the previous counter
value.  Stated for physically meaningful batches: nonnegative sample
durations whose total fits `int64`, with `rttCount ≥ 1` in the
overflow-free index regime so that the batch succeeds. -/
theorem latency_mean_swap (n : Nat) (l : List Int) (old old2 : Nat)
    (hn : 1 ≤ n) (hlen : l.length = n) (hov : rttCountFixedFn n * 99 < u32)
    (hpos : ∀ d ∈ l, 0 ≤ d) (hsum : l.sum < 2 ^ 63) :
    ∃ b, latencyBatch n l old = some b ∧
      (b.newData : Int) = Int.tdiv l.sum (n : Int) ∧
      latencyBatch n l old2 = latencyBatch n l old := by
  have hlen' : (sortLatency l).length = n := by rw [sortLatency_length, hlen]
  obtain ⟨b50, b90, b95, b99, b999, b9999, bmax, b0⟩ := latency_indices_lt hn hov
  have B0 : 0 < (sortLatency l).length := by rw [hlen']; exact b0
  have Bmax : n - 1 < (sortLatency l).length := by rw [hlen']; exact bmax
  have B50 : percIdx (rttCountFixedFn n) 50 < (sortLatency l).length := by
    rw [hlen']; exact b50
  have B90 : percIdx (rttCountFixedFn n) 90 < (sortLatency l).length := by
    rw [hlen']; exact b90
  have B95 : percIdx (rttCountFixedFn n) 95 < (sortLatency l).length := by
    rw [hlen']; exact b95
  have B99 : percIdx (rttCountFixedFn n) 99 < (sortLatency l).length := by
    rw [hlen']; exact b99
  have B999 : percIdx999 (rttCountFixedFn n) < (sortLatency l).length := by
    rw [hlen']; exact b999
  have B9999 : percIdx9999 (rttCountFixedFn n) < (sortLatency l).length := by
    rw [hlen']; exact b9999
  have E := latencyBatch_eval n l old (by omega) B0 Bmax B50 B90 B95 B99
    B999 B9999
  have E2 := latencyBatch_eval n l old2 (by omega) B0 Bmax B50 B90 B95 B99
    B999 B9999
  refine ⟨_, E, ?_, E2.trans E.symm⟩
  show (toUint64 (Int.tdiv (sumInt64 l) (n : Int)) : Int) =
    Int.tdiv l.sum (n : Int)
  rw [sumInt64_eq_sum hpos hsum]
  have hs0 : (0 : Int) ≤ l.sum := List.sum_nonneg hpos
  have hz0 : (0 : Int) ≤ Int.tdiv l.sum (n : Int) :=
    Int.tdiv_nonneg hs0 (by exact_mod_cast Nat.zero_le n)
  have hzle : Int.tdiv l.sum (n : Int) ≤ l.sum := by
    rw [Int.tdiv_eq_ediv hs0 (by exact_mod_cast Nat.zero_le n)]
    exact Int.ediv_le_self _ hs0
  unfold toUint64
  rw [Int.emod_eq_of_lt hz0 (by omega)]
  exact Int.toNat_of_nonneg hz0

/-- Witness for C6 at `rttCount = 2`, samples `[4, 9]` (mean `6` after
truncation), previous counter values `0` and `5`. -/
theorem latency_mean_swap_witness :
    (1 ≤ 2 ∧ ([4, 9] : List Int).length = 2 ∧ rttCountFixedFn 2 * 99 < u32 ∧
      ([4, 9] : List Int).sum < 2 ^ 63) ∧
    (∃ b, latencyBatch 2 [4, 9] 0 = some b ∧
      (b.newData : Int) = Int.tdiv ([4, 9] : List Int).sum (2 : Int) ∧
      latencyBatch 2 [4, 9] 5 = latencyBatch 2 [4, 9] 0) :=
  ⟨⟨by norm_num, by decide, by decide, by decide⟩,
    latency_mean_swap 2 [4, 9] 0 5 (by norm_num) (by decide) (by decide)
      (by decide) (by decide)⟩

/-- C1: when the first control message is a `Syn` whose
`(remoteAddress, protocol, testType)` key already has a live test in the
registry, the handler sends exactly one `Fin` carrying the
duplicate-rejection reason and closes the connection; the registry is
returned unchanged (no record created, the existing record untouched), no
`done` signal is closed and no record is deleted — for every continuation
of the message stream and every data-plane outcome. -/
theorem handleRequest_rejects_duplicate (reg : EthrRegistry) (server : String)
    (param : EthrTestParam) (rest : List EthrMsg) (ppsSetupOk ackSendOk : Bool)
    (hdup : getTest reg server param.TestId.Protocol param.TestId.Type' ≠ none) :
    handleRequest reg server (.syn param :: rest) ppsSetupOk ackSendOk =
      ⟨reg, [.fin (dupReason param server)], true, false, false, false⟩ := by
  simp only [handleRequest, newTest]
  cases hh : getTest reg server param.TestId.Protocol param.TestId.Type' with
  | none => exact absurd hh hdup
  | some t => rfl

/-- Witness for C1: a second `Syn` for the already-registered key
`("10.0.0.1", Tcp, Latency)` is rejected with `Fin` and the registry (with
its single live record, counter `7`) is unchanged. -/
theorem handleRequest_rejects_duplicate_witness :
    getTest [⟨"10.0.0.1", ⟨⟨.Tcp, .Latency⟩, 1, 10, 1⟩, true, false, 7⟩]
        "10.0.0.1" EthrProtocol.Tcp EthrTestType.Latency ≠ none ∧
    handleRequest [⟨"10.0.0.1", ⟨⟨.Tcp, .Latency⟩, 1, 10, 1⟩, true, false, 7⟩]
        "10.0.0.1" [.syn ⟨⟨.Tcp, .Latency⟩, 1, 10, 1⟩, .ack] true true =
      ⟨[⟨"10.0.0.1", ⟨⟨.Tcp, .Latency⟩, 1, 10, 1⟩, true, false, 7⟩],
        [.fin (dupReason ⟨⟨.Tcp, .Latency⟩, 1, 10, 1⟩ "10.0.0.1")],
        true, false, false, false⟩ :=
  ⟨by decide, handleRequest_rejects_duplicate _ _ _ _ _ _ (by decide)⟩

/-- C2: when the `Syn` key is fresh so a test record is created, then on
every exit path thereafter — Pps data-plane setup failure, `Ack` send
failure, a client reply other than `Ack`, or normal termination — the same
cleanup runs: the control connection is closed, the test's `done` signal
is closed, and the test is deleted so that the final registry equals the
original one (no record left behind); the handler sends at most the single
server `Ack` (nothing else), and the test is marked active exactly when
Pps setup did not fail, the `Ack` send succeeded, and the client's single
expected reply was an `Ack`. -/
theorem handleRequest_cleanup_all_paths (reg : EthrRegistry) (server : String)
    (param : EthrTestParam) (rest : List EthrMsg) (ppsSetupOk ackSendOk : Bool)
    (o : HandleOutcome)
    (hnone : getTest reg server param.TestId.Protocol param.TestId.Type' = none)
    (ho : handleRequest reg server (.syn param :: rest) ppsSetupOk ackSendOk = o) :
    (o.sent = [] ∨ o.sent = [EthrMsg.ack]) ∧ o.connClosed = true ∧
    o.doneClosed = true ∧ o.deleted = true ∧ o.regAfter = reg ∧
    (o.becameActive = true ↔
      (¬(param.TestId.Type' = .Pps ∧ ppsSetupOk = false) ∧ ackSendOk = true ∧
        rest.head? = some EthrMsg.ack)) := by
  subst ho
  simp only [handleRequest, newTest, hnone, deleteTest_fresh reg server param hnone]
  by_cases h1 : param.TestId.Type' = .Pps ∧ ppsSetupOk = false
  · rw [if_pos h1]
    simp [h1]
  · rw [if_neg h1]
    by_cases h2 : ackSendOk = false
    · rw [if_pos h2]
      simp [h1, h2]
    · rw [if_neg h2]
      have h2' : ackSendOk = true := by revert h2; cases ackSendOk <;> simp
      cases rest with
      | nil => simp [h1, h2']
      | cons m ms => cases m <;> simp [h1, h2']

/-- Witness for C2: a fresh `(Tcp, Bandwidth)` `Syn` on the empty registry
followed by a client `Ack`; the handler acknowledges once, becomes active,
and cleanup leaves the registry empty. -/
theorem handleRequest_cleanup_all_paths_witness :
    getTest [] "10.0.0.2" EthrProtocol.Tcp EthrTestType.Bandwidth = none ∧
    (((handleRequest [] "10.0.0.2"
        [.syn ⟨⟨.Tcp, .Bandwidth⟩, 1024, 0, 1⟩, .ack] true true).sent = [] ∨
      (handleRequest [] "10.0.0.2"
        [.syn ⟨⟨.Tcp, .Bandwidth⟩, 1024, 0, 1⟩, .ack] true true).sent =
        [EthrMsg.ack]) ∧
    (handleRequest [] "10.0.0.2"
      [.syn ⟨⟨.Tcp, .Bandwidth⟩, 1024, 0, 1⟩, .ack] true true).connClosed = true ∧
    (handleRequest [] "10.0.0.2"
      [.syn ⟨⟨.Tcp, .Bandwidth⟩, 1024, 0, 1⟩, .ack] true true).doneClosed = true ∧
    (handleRequest [] "10.0.0.2"
      [.syn ⟨⟨.Tcp, .Bandwidth⟩, 1024, 0, 1⟩, .ack] true true).deleted = true ∧
    (handleRequest [] "10.0.0.2"
      [.syn ⟨⟨.Tcp, .Bandwidth⟩, 1024, 0, 1⟩, .ack] true true).regAfter = [] ∧
    ((handleRequest [] "10.0.0.2"
        [.syn ⟨⟨.Tcp, .Bandwidth⟩, 1024, 0, 1⟩, .ack] true true).becameActive =
          true ↔
      (¬((⟨⟨.Tcp, .Bandwidth⟩, 1024, 0, 1⟩ : EthrTestParam).TestId.Type' =
            .Pps ∧ true = false) ∧ true = true ∧
        ([EthrMsg.ack] : List EthrMsg).head? = some EthrMsg.ack))) :=
  ⟨rfl, handleRequest_cleanup_all_paths [] "10.0.0.2"
    ⟨⟨.Tcp, .Bandwidth⟩, 1024, 0, 1⟩ [.ack] true true _ rfl rfl⟩

/-- C7, evidence of the code bug: in `runBandwidthHandler` a failed
`io.ReadFull` does NOT end the read loop — the source logs and
`continue`s.  Concretely: after a lone read error the loop is still
running (`exited = false`, so the deferred `closeConn` has not run); after
a read error followed by a successful read the counter has grown by
`bufferSize`, i.e. the handler kept iterating past the failed read; only
the `done` signal ends the loop.  The claim (and spec §4.2/§7) states the
opposite: that a non-cancellation read error ends the loop and closes the
connection. -/
theorem bandwidth_read_error_keeps_looping :
    runBandwidthHandler 1024 [BwEvent.readErr] 0 = (0, false) ∧
    runBandwidthHandler 1024 [BwEvent.readErr, BwEvent.readOk] 0 =
      (1024, false) ∧
    runBandwidthHandler 1024 [BwEvent.doneFired] 0 = (0, true) := by
  refine ⟨rfl, ?_, rfl⟩
  decide

/-- C8: the Cps counter grows by exactly `1` (as a `uint64`) per accepted
TCP connection whose remote address keys a live `(addr, Tcp, Cps)` test,
and the Pps counter grows by exactly `1` per received UDP datagram whose
sender keys a live `(addr, Udp, Pps)` test; the updated registry is the
old one with only that one record's counter bumped (`List.set` at its
position), and a connection or datagram with no matching test leaves the
registry — hence every counter — unchanged. -/
theorem cps_pps_exact_increment (reg : EthrRegistry) (a b : String) :
    (getTest reg a .Tcp .Cps = none → runCPSHandler reg a = reg) ∧
    (∀ t, getTest reg a .Tcp .Cps = some t →
      ∃ i, reg[i]? = some t ∧
        runCPSHandler reg a = reg.set i (bumpData t 1)) ∧
    (getTest reg b .Udp .Pps = none → runPPSHandlerStep reg b = reg) ∧
    (∀ t, getTest reg b .Udp .Pps = some t →
      ∃ i, reg[i]? = some t ∧
        runPPSHandlerStep reg b = reg.set i (bumpData t 1)) := by
  refine ⟨fun h => ?_, fun t h => ?_, fun h => ?_, fun t h => ?_⟩
  · simp [runCPSHandler, h]
  · obtain ⟨i, hi, ha⟩ := getTest_addToFirst h 1
    exact ⟨i, hi, by simp [runCPSHandler, h, ha]⟩
  · simp [runPPSHandlerStep, h]
  · obtain ⟨i, hi, ha⟩ := getTest_addToFirst h 1
    exact ⟨i, hi, by simp [runPPSHandlerStep, h, ha]⟩

/-- Witness for C8: an unsolicited connection and datagram on the empty
registry change nothing; a matching Cps connection and a matching Pps
datagram each bump their test's counter by one. -/
theorem cps_pps_exact_increment_witness :
    (runCPSHandler [] "10.0.0.3" = []) ∧
    (∃ i, ([⟨"10.0.0.3", ⟨⟨.Tcp, .Cps⟩, 1, 0, 1⟩, true, false, 41⟩] :
        EthrRegistry)[i]? =
          some ⟨"10.0.0.3", ⟨⟨.Tcp, .Cps⟩, 1, 0, 1⟩, true, false, 41⟩ ∧
      runCPSHandler [⟨"10.0.0.3", ⟨⟨.Tcp, .Cps⟩, 1, 0, 1⟩, true, false, 41⟩]
          "10.0.0.3" =
        ([⟨"10.0.0.3", ⟨⟨.Tcp, .Cps⟩, 1, 0, 1⟩, true, false, 41⟩] :
          EthrRegistry).set i
          (bumpData ⟨"10.0.0.3", ⟨⟨.Tcp, .Cps⟩, 1, 0, 1⟩, true, false, 41⟩ 1)) ∧
    (runPPSHandlerStep [] "10.0.0.4" = []) ∧
    (∃ i, ([⟨"10.0.0.4", ⟨⟨.Udp, .Pps⟩, 1, 0, 1⟩, true, false, 5⟩] :
        EthrRegistry)[i]? =
          some ⟨"10.0.0.4", ⟨⟨.Udp, .Pps⟩, 1, 0, 1⟩, true, false, 5⟩ ∧
      runPPSHandlerStep [⟨"10.0.0.4", ⟨⟨.Udp, .Pps⟩, 1, 0, 1⟩, true, false, 5⟩]
          "10.0.0.4" =
        ([⟨"10.0.0.4", ⟨⟨.Udp, .Pps⟩, 1, 0, 1⟩, true, false, 5⟩] :
          EthrRegistry).set i
          (bumpData ⟨"10.0.0.4", ⟨⟨.Udp, .Pps⟩, 1, 0, 1⟩, true, false, 5⟩ 1)) :=
  ⟨(cps_pps_exact_increment [] "10.0.0.3" "10.0.0.4").1 rfl,
    (cps_pps_exact_increment
      [⟨"10.0.0.3", ⟨⟨.Tcp, .Cps⟩, 1, 0, 1⟩, true, false, 41⟩]
      "10.0.0.3" "10.0.0.4").2.1
      ⟨"10.0.0.3", ⟨⟨.Tcp, .Cps⟩, 1, 0, 1⟩, true, false, 41⟩ (by decide),
    (cps_pps_exact_increment [] "10.0.0.3" "10.0.0.4").2.2.1 rfl,
    (cps_pps_exact_increment
      [⟨"10.0.0.4", ⟨⟨.Udp, .Pps⟩, 1, 0, 1⟩, true, false, 5⟩]
      "10.0.0.3" "10.0.0.4").2.2.2
      ⟨"10.0.0.4", ⟨⟨.Udp, .Pps⟩, 1, 0, 1⟩, true, false, 5⟩ (by decide)⟩

/-- C9: for every HTTP request whose body was drained successfully, a
method other than `GET`/`PUT`/`POST` is answered `405` (after the drain)
with no registry change; for `GET`/`PUT`/`POST` the `200 "ok"` body is
written first and only then is `(remoteAddr, Http, Bandwidth)` looked up
— on no match a `401` is additionally written (after the `200`) and the
registry is unchanged, and on a match the declared content length is
added to that test's counter exactly when it is positive. -/
theorem http_handler_order_and_count (reg : EthrRegistry)
    (method server : String) (cl : Int) :
    (¬(method = "GET" ∨ method = "PUT" ∨ method = "POST") →
      handleHttpRequest reg method server cl true =
        ([.drainedBody, .methodNotAllowed], reg)) ∧
    ((method = "GET" ∨ method = "PUT" ∨ method = "POST") →
      (getTest reg server .Http .Bandwidth = none →
        handleHttpRequest reg method server cl true =
          ([.drainedBody, .okBody, .unauthorized], reg)) ∧
      (∀ t, getTest reg server .Http .Bandwidth = some t →
        (0 < cl → ∃ i, reg[i]? = some t ∧
          handleHttpRequest reg method server cl true =
            ([.drainedBody, .okBody], reg.set i (bumpData t cl.toNat))) ∧
        (¬0 < cl → handleHttpRequest reg method server cl true =
          ([.drainedBody, .okBody], reg)))) := by
  refine ⟨fun hm => ?_, fun hm => ⟨fun h => ?_, fun t h => ⟨fun hcl => ?_, fun hcl => ?_⟩⟩⟩
  · simp [handleHttpRequest, hm]
  · simp [handleHttpRequest, hm, h]
  · obtain ⟨i, hi, ha⟩ := getTest_addToFirst h cl.toNat
    exact ⟨i, hi, by simp [handleHttpRequest, hm, h, hcl, ha]⟩
  · simp [handleHttpRequest, hm, h, hcl]

/-- Witness for C9: a `DELETE` gets `405`; a `GET` from an unregistered
address gets `200` then `401`; a `POST` with `Content-Length: 500` from a
registered `(addr, Http, Bandwidth)` test adds `500` to its counter; a
`GET` with no positive declared length changes nothing. -/
theorem http_handler_order_and_count_witness :
    (handleHttpRequest [] "DELETE" "10.0.0.5" 500 true =
      ([.drainedBody, .methodNotAllowed], [])) ∧
    (handleHttpRequest [] "GET" "10.0.0.5" 500 true =
      ([.drainedBody, .okBody, .unauthorized], [])) ∧
    (∃ i, ([⟨"10.0.0.5", ⟨⟨.Http, .Bandwidth⟩, 1, 0, 1⟩, true, false, 0⟩] :
        EthrRegistry)[i]? =
          some ⟨"10.0.0.5", ⟨⟨.Http, .Bandwidth⟩, 1, 0, 1⟩, true, false, 0⟩ ∧
      handleHttpRequest
          [⟨"10.0.0.5", ⟨⟨.Http, .Bandwidth⟩, 1, 0, 1⟩, true, false, 0⟩]
          "POST" "10.0.0.5" 500 true =
        ([.drainedBody, .okBody],
          ([⟨"10.0.0.5", ⟨⟨.Http, .Bandwidth⟩, 1, 0, 1⟩, true, false, 0⟩] :
            EthrRegistry).set i
            (bumpData ⟨"10.0.0.5", ⟨⟨.Http, .Bandwidth⟩, 1, 0, 1⟩, true, false, 0⟩
              ((500 : Int)).toNat))) ∧
    (handleHttpRequest
        [⟨"10.0.0.5", ⟨⟨.Http, .Bandwidth⟩, 1, 0, 1⟩, true, false, 0⟩]
        "GET" "10.0.0.5" (-1) true =
      ([.drainedBody, .okBody],
        [⟨"10.0.0.5", ⟨⟨.Http, .Bandwidth⟩, 1, 0, 1⟩, true, false, 0⟩])) :=
  ⟨(http_handler_order_and_count [] "DELETE" "10.0.0.5" 500).1 (by decide),
    ((http_handler_order_and_count [] "GET" "10.0.0.5" 500).2
      (by simp)).1 rfl,
    (((http_handler_order_and_count
        [⟨"10.0.0.5", ⟨⟨.Http, .Bandwidth⟩, 1, 0, 1⟩, true, false, 0⟩]
        "POST" "10.0.0.5" 500).2 (by simp)).2
      ⟨"10.0.0.5", ⟨⟨.Http, .Bandwidth⟩, 1, 0, 1⟩, true, false, 0⟩
      (by decide)).1 (by norm_num),
    (((http_handler_order_and_count
        [⟨"10.0.0.5", ⟨⟨.Http, .Bandwidth⟩, 1, 0, 1⟩, true, false, 0⟩]
        "GET" "10.0.0.5" (-1)).2 (by simp)).2
      ⟨"10.0.0.5", ⟨⟨.Http, .Bandwidth⟩, 1, 0, 1⟩, true, false, 0⟩
      (by decide)).2 (by norm_num)⟩

end Ethr
